import Mathlib

/-!
Verification development for the LexiLens phonetic correction engine
(`src/utils/local-ai.ts`, phonetic-engine section).

The engine is embedded shallowly:
* JS strings are modelled as Lean `String`s (lists of characters); positions
  are character indices.
* `String.prototype.toLowerCase`/`toUpperCase` are modelled with the ASCII
  maps `Char.toLower`/`Char.toUpper` (all lexicon data is ASCII).
* A JS `Map` built from an entry list is modelled by `jsMapGet` (the last
  entry for a key wins, as in the `Map` constructor); the mutable `Map` used
  by `mergeSuggestions` is modelled as an insertion-ordered association list
  with `jsMapSet`/`jsAssocGet`/values.
* Numeric confidences are modelled as rationals.
-/

-- =============================================================================
-- String helpers (models of the JS string primitives used by the engine)
-- =============================================================================

/-- Model of `s.toLowerCase()` (ASCII case map, as used by the engine). -/
def jsToLower (s : String) : String := ⟨s.data.map Char.toLower⟩

/-- Model of `s.toUpperCase()` (ASCII case map, as used by the engine). -/
def jsToUpper (s : String) : String := ⟨s.data.map Char.toUpper⟩

/-- Characters in `[a, b)`, i.e. `(cs.drop a).take (b - a)`. -/
def listSlice (cs : List Char) (a b : Nat) : List Char := (cs.drop a).take (b - a)

/-- Model of `text.substring(a, b)`: both arguments are clamped to
`[0, length]` and swapped if out of order, then the slice is taken. -/
def jsSubstring (s : String) (a b : Nat) : String :=
  let len := s.data.length
  let a' := min a len
  let b' := min b len
  ⟨listSlice s.data (min a' b') (max a' b')⟩

/-- Characters matched by the `[a-zA-Z]` character class. -/
def isLetterChar (c : Char) : Bool :=
  (('a' ≤ c) && (c ≤ 'z')) || (('A' ≤ c) && (c ≤ 'Z'))

-- =============================================================================
-- Data model (src/types/index.ts)
-- =============================================================================

/-- Position field of a suggestion: character offsets, end exclusive. -/
structure Position where
  start : Nat
  «end» : Nat
deriving DecidableEq

/-- The `SpellingSuggestion` record from `src/types/index.ts`.  `category` and `tip` are
optional (AI-produced records carry neither), `source` is the string literal
union `'local' | 'ai'`, and the numeric confidence is modelled as a rational. -/
structure SpellingSuggestion where
  original : String
  suggestions : List String
  confidence : ℚ
  source : String
  position : Position
  category : Option String
  tip : Option String
deriving DecidableEq

/-- Value type of the `DYSLEXIA_ERRORS`/`LETTER_REVERSALS` tables. -/
structure ErrorEntry where
  correction : String
  tip : String
deriving DecidableEq

/-- Value type of the `HOMOPHONES` table. -/
structure HomophoneEntry where
  alternatives : List String
  tip : String
deriving DecidableEq

/-- Model of `Map.get` on a JS `Map` built from an entry list: the last entry whose
key equals `k` wins (later duplicate keys overwrite earlier ones in the
`Map` constructor). -/
def jsMapGet {α : Type} (entries : List (String × α)) (k : String) : Option α :=
  entries.foldl (fun acc p => if p.1 = k then some p.2 else acc) none

/-- Model of `Map.has`, coherent with `jsMapGet`. -/
def jsMapHas {α : Type} (entries : List (String × α)) (k : String) : Bool :=
  (jsMapGet entries k).isSome
def DYSLEXIA_ERRORS_1 : List (String × ErrorEntry) := [
  ("yesturday", ⟨"yesterday", "Sound it out: YES-ter-day"⟩),
  ("yesterdya", ⟨"yesterday", "Sound it out: YES-ter-day"⟩),
  ("vary", ⟨"very", "\"Very\" has an \"e\" - think \"vEry good\""⟩),
  ("suny", ⟨"sunny", "Double \"n\" for sunny - suNNy"⟩),
  ("sunnny", ⟨"sunny", "Only two \"n\"s - suNNy"⟩),
  ("desided", ⟨"decided", "\"Decide\" has a \"c\" - deCided"⟩),
  ("decidid", ⟨"decided", "Ends in \"-ed\" not \"-id\""⟩),
  ("tireed", ⟨"tired", "Only one \"e\" at the end - tirEd"⟩),
  ("tierd", ⟨"tired", "The \"i\" comes first - tIred"⟩),
  ("qwickly", ⟨"quickly", "\"Quick\" starts with \"qu\" not \"qw\""⟩),
  ("quikly", ⟨"quickly", "Don't forget the \"c\" - quiCKly"⟩),
  ("quickley", ⟨"quickly", "Ends in \"-ly\" not \"-ley\""⟩),
  ("brote", ⟨"brought", "\"Brought\" has \"ough\" - brOUGHt"⟩),
  ("brot", ⟨"brought", "\"Brought\" has \"ough\" - brOUGHt"⟩),
  ("brough", ⟨"brought", "Don't forget the \"t\" - broughT"⟩),
  ("brid", ⟨"bird", "Letters swapped! b-i-r-d"⟩),
  ("bidr", ⟨"bird", "Letters swapped! b-i-r-d"⟩),
  ("sowng", ⟨"song", "No \"w\" in song - just sONg"⟩),
  ("songe", ⟨"song", "No \"e\" at the end - song"⟩),
  ("wright", ⟨"write", "\"Write\" has no \"gh\" - wrIte (Wright is a name!)"⟩),
  ("rite", ⟨"write", "Don't forget the \"w\" - Write"⟩),
  ("wriet", ⟨"write", "Letters swapped! w-r-i-t-e"⟩),
  ("corectly", ⟨"correctly", "Double \"r\" - coRRectly"⟩),
  ("correctley", ⟨"correctly", "Ends in \"-ly\" not \"-ley\""⟩),
  ("dancng", ⟨"dancing", "Don't forget the \"i\" - dancIng"⟩)
]

def DYSLEXIA_ERRORS_2 : List (String × ErrorEntry) := [
  ("dansing", ⟨"dancing", "\"Dance\" has a \"c\" - danCing"⟩),
  ("triky", ⟨"tricky", "\"Trick\" has \"ck\" - triCKy"⟩),
  ("trikcy", ⟨"tricky", "The \"c\" and \"k\" together - triCKy"⟩),
  ("stoeries", ⟨"stories", "No \"e\" - stOries (story → stories)"⟩),
  ("storys", ⟨"stories", "\"y\" changes to \"ies\" - storIES"⟩),
  ("stoires", ⟨"stories", "Letters swapped! s-t-o-r-i-e-s"⟩),
  ("frend", ⟨"friend", "\"i\" before \"e\" - think \"I am your frIEnd\""⟩),
  ("freind", ⟨"friend", "\"i\" before \"e\" except after \"c\""⟩),
  ("firend", ⟨"friend", "Letters swapped! f-r-i-e-n-d"⟩),
  ("wich", ⟨"which", "Starts with \"wh\" - \"WHich one?\""⟩),
  ("whitch", ⟨"which", "No \"t\" - just whICH"⟩),
  ("thier", ⟨"their", "\"i\" before \"e\" - \"thEIr\" belongs to thEm"⟩),
  ("becuase", ⟨"because", "Sound it out: be-CAUSE"⟩),
  ("beacuse", ⟨"because", "Sound it out: be-CAUSE"⟩),
  ("becasue", ⟨"because", "Sound it out: be-CAUSE"⟩),
  ("becaus", ⟨"because", "Don't forget the \"e\" - becausE"⟩),
  ("wierd", ⟨"weird", "\"Weird\" is weird - \"e\" before \"i\"!"⟩),
  ("recieve", ⟨"receive", "\"i\" before \"e\" EXCEPT after \"c\" - reCEIve"⟩),
  ("beleive", ⟨"believe", "Don't beLIEve a LIE"⟩),
  ("belive", ⟨"believe", "Don't beLIEve a LIE"⟩),
  ("beleave", ⟨"believe", "Don't beLIEve a LIE"⟩),
  ("definately", ⟨"definitely", "There's \"finite\" in deFINITEly"⟩),
  ("definatly", ⟨"definitely", "There's \"finite\" in deFINITEly"⟩),
  ("deffinately", ⟨"definitely", "One \"f\", and \"finite\" inside - deFINITEly"⟩),
  ("seperate", ⟨"separate", "There's \"A RAT\" in sepARAte"⟩)
]

def DYSLEXIA_ERRORS_3 : List (String × ErrorEntry) := [
  ("seperete", ⟨"separate", "There's \"A RAT\" in sepARAte"⟩),
  ("occured", ⟨"occurred", "Double \"c\", double \"r\" - oCCuRRed"⟩),
  ("ocurred", ⟨"occurred", "Double \"c\", double \"r\" - oCCuRRed"⟩),
  ("untill", ⟨"until", "Only ONE \"l\" - untiL"⟩),
  ("tommorrow", ⟨"tomorrow", "One \"m\", two \"r\"s - toMoRRow"⟩),
  ("tommorow", ⟨"tomorrow", "One \"m\", two \"r\"s - toMoRRow"⟩),
  ("tomorow", ⟨"tomorrow", "Two \"r\"s - tomoRRow"⟩),
  ("accomodate", ⟨"accommodate", "Two \"c\"s, two \"m\"s - aCCoMModate"⟩),
  ("acommodate", ⟨"accommodate", "Two \"c\"s, two \"m\"s - aCCoMModate"⟩),
  ("recomend", ⟨"recommend", "One \"c\", two \"m\"s - reCOMMend"⟩),
  ("reccommend", ⟨"recommend", "One \"c\", two \"m\"s - reCOMMend"⟩),
  ("neccessary", ⟨"necessary", "One \"c\", two \"s\"s - neCeSSary"⟩),
  ("necesary", ⟨"necessary", "One \"c\", two \"s\"s - neCeSSary"⟩),
  ("neccesary", ⟨"necessary", "One \"c\", two \"s\"s - neCeSSary"⟩),
  ("goverment", ⟨"government", "Don't forget the \"n\" - goverNment"⟩),
  ("govenment", ⟨"government", "It's \"govern\" + \"ment\" - govERNment"⟩),
  ("enviroment", ⟨"environment", "Don't forget the \"n\" - enviroNment"⟩),
  ("enviornment", ⟨"environment", "Watch the order - envi-RON-ment"⟩),
  ("occurence", ⟨"occurrence", "Double \"c\", double \"r\" - oCCuRRence"⟩),
  ("begining", ⟨"beginning", "Double \"n\" - begiNNing"⟩),
  ("beggining", ⟨"beginning", "One \"g\", two \"n\"s - beGiNNing"⟩),
  ("arguement", ⟨"argument", "No \"e\" - just argUment"⟩),
  ("independant", ⟨"independent", "Ends in \"-ent\" not \"-ant\""⟩),
  ("calender", ⟨"calendar", "Ends in \"-ar\" - calendAR"⟩),
  ("existance", ⟨"existence", "Ends in \"-ence\" - existENCE"⟩)
]

def DYSLEXIA_ERRORS_4 : List (String × ErrorEntry) := [
  ("experiance", ⟨"experience", "Ends in \"-ence\" - experiENCE"⟩),
  ("expierence", ⟨"experience", "Watch the order: ex-PER-i-ence"⟩),
  ("noticable", ⟨"noticeable", "Keep the \"e\" - noticeABLE"⟩),
  ("posession", ⟨"possession", "Double \"s\" twice - poSSeSSion"⟩),
  ("priviledge", ⟨"privilege", "No \"d\" - privilEGE"⟩),
  ("rythm", ⟨"rhythm", "No vowels! R-H-Y-T-H-M"⟩),
  ("rhythym", ⟨"rhythm", "Only one \"y\" - rhYthm"⟩),
  ("suprise", ⟨"surprise", "First \"r\" is easy to miss - suRprise"⟩),
  ("surprize", ⟨"surprise", "Ends in \"-ise\" not \"-ize\""⟩),
  ("diffrent", ⟨"different", "Don't forget the second \"e\" - diffErEnt"⟩),
  ("differant", ⟨"different", "Ends in \"-ent\" - differENT"⟩),
  ("beautifull", ⟨"beautiful", "Only one \"l\" at the end - beautifuL"⟩),
  ("bueatiful", ⟨"beautiful", "Sound it out: beau-ti-ful"⟩),
  ("beutiful", ⟨"beautiful", "Don't forget the \"a\" - beAUtiful"⟩),
  ("probly", ⟨"probably", "Don't forget \"ab\" - probABly"⟩),
  ("probaly", ⟨"probably", "Two \"b\"s - proBaBly"⟩),
  ("finaly", ⟨"finally", "Double \"l\" - finaLLy"⟩),
  ("realy", ⟨"really", "Double \"l\" - reaLLy"⟩),
  ("actualy", ⟨"actually", "Double \"l\" - actuaLLy"⟩),
  ("basicly", ⟨"basically", "It's \"basic\" + \"ally\" - basicALLy"⟩),
  ("usally", ⟨"usually", "Don't forget the \"u\" - usUally"⟩),
  ("ususally", ⟨"usually", "Only two \"u\"s - Usually"⟩)
]

def DYSLEXIA_ERRORS : List (String × ErrorEntry) :=
  DYSLEXIA_ERRORS_1 ++ DYSLEXIA_ERRORS_2 ++ DYSLEXIA_ERRORS_3 ++ DYSLEXIA_ERRORS_4


def COMMON_TYPOS : List (String × String) := [
  ("teh", "the"),
  ("taht", "that"),
  ("adn", "and"),
  ("hte", "the"),
  ("thnk", "think"),
  ("waht", "what"),
  ("whta", "what"),
  ("yuo", "you"),
  ("jsut", "just"),
  ("liek", "like"),
  ("aobut", "about"),
  ("dont", "don't"),
  ("didnt", "didn't"),
  ("cant", "can't"),
  ("wont", "won't"),
  ("wouldnt", "wouldn't"),
  ("couldnt", "couldn't"),
  ("shouldnt", "shouldn't"),
  ("youre", "you're"),
  ("theyre", "they're"),
  ("weve", "we've"),
  ("ive", "I've"),
  ("im", "I'm"),
  ("alot", "a lot")
]

def LETTER_REVERSALS : List (String × ErrorEntry) := [
  ("doy", ⟨"boy", "b/d reversal - \"b\" has belly in front"⟩),
  ("dag", ⟨"bag", "b/d reversal - \"b\" has belly in front"⟩),
  ("dack", ⟨"back", "b/d reversal - \"b\" has belly in front"⟩),
  ("boor", ⟨"door", "b/d reversal - \"d\" has belly behind"⟩),
  ("bate", ⟨"date", "b/d reversal - \"d\" has belly behind"⟩),
  ("qark", ⟨"park", "p/q reversal - \"p\" points right"⟩),
  ("qen", ⟨"pen", "p/q reversal - \"p\" points right"⟩),
  ("nife", ⟨"knife", "Silent \"k\" at the start"⟩),
  ("nock", ⟨"knock", "Silent \"k\" at the start"⟩),
  ("rong", ⟨"wrong", "Silent \"w\" at the start"⟩),
  ("rite", ⟨"write", "Silent \"w\" at the start"⟩)
]

def HOMOPHONES : List (String × HomophoneEntry) := [
  ("their", ⟨["there", "they're"], "📦 their = belongs to them | 📍 there = location | 👥 they're = they are"⟩),
  ("there", ⟨["their", "they're"], "📍 there = location | 📦 their = belongs to them | 👥 they're = they are"⟩),
  ("they're", ⟨["their", "there"], "👥 they're = they are | 📦 their = belongs to them | 📍 there = location"⟩),
  ("theyre", ⟨["their", "there", "they're"], "Did you mean \"they're\" (they are)?"⟩),
  ("your", ⟨["you're"], "📦 your = belongs to you | 👤 you're = you are"⟩),
  ("you're", ⟨["your"], "👤 you're = you are | 📦 your = belongs to you"⟩),
  ("its", ⟨["it's"], "📦 its = belongs to it | ⚡ it's = it is"⟩),
  ("it's", ⟨["its"], "⚡ it's = it is | 📦 its = belongs to it"⟩),
  ("to", ⟨["too", "two"], "➡️ to = direction | ➕ too = also/excessive | 2️⃣ two = number 2"⟩),
  ("too", ⟨["to", "two"], "➕ too = also/excessive | ➡️ to = direction | 2️⃣ two = number 2"⟩),
  ("two", ⟨["to", "too"], "2️⃣ two = number 2 | ➡️ to = direction | ➕ too = also"⟩),
  ("affect", ⟨["effect"], "🎬 Affect = Action (verb) | 📊 Effect = End result (noun)"⟩),
  ("effect", ⟨["affect"], "📊 Effect = End result (noun) | 🎬 Affect = Action (verb)"⟩),
  ("then", ⟨["than"], "⏰ then = time/sequence | ⚖️ than = comparison"⟩),
  ("than", ⟨["then"], "⚖️ than = comparison | ⏰ then = time/sequence"⟩),
  ("accept", ⟨["except"], "✅ accept = receive/agree | ❌ except = exclude"⟩),
  ("except", ⟨["accept"], "❌ except = exclude | ✅ accept = receive/agree"⟩),
  ("lose", ⟨["loose"], "❌ lose = misplace | 🔓 loose = not tight"⟩),
  ("loose", ⟨["lose"], "🔓 loose = not tight | ❌ lose = misplace"⟩),
  ("weather", ⟨["whether"], "🌤️ weather = climate | 🤔 whether = if"⟩),
  ("whether", ⟨["weather"], "🤔 whether = if | 🌤️ weather = climate"⟩),
  ("right", ⟨["write", "rite"], "✅ right = correct | ✍️ write = text | 🙏 rite = ceremony"⟩),
  ("write", ⟨["right", "rite"], "✍️ write = text | ✅ right = correct | 🙏 rite = ceremony"⟩),
  ("know", ⟨["no"], "🧠 know = understand | 🚫 no = negative"⟩),
  ("no", ⟨["know"], "🚫 no = negative | 🧠 know = understand"⟩),
  ("hear", ⟨["here"], "👂 hear = listen | 📍 here = this place"⟩),
  ("here", ⟨["hear"], "📍 here = this place | 👂 hear = listen"⟩),
  ("piece", ⟨["peace"], "🧩 piece = part | ☮️ peace = calm"⟩),
  ("peace", ⟨["piece"], "☮️ peace = calm | 🧩 piece = part"⟩)
]

-- =============================================================================
-- Word extraction (`extractWords`, src/utils/local-ai.ts:559-587)
-- =============================================================================

/-- A word token with its exact character offsets (`WordMatch`). -/
structure WordMatch where
  word : String
  start : Nat
  «end» : Nat
deriving DecidableEq

/-- First index `≥ i` holding a character outside `[a-zA-Z]` (or the length of
the text).  The fuel argument makes the recursion structural; it is always
called with fuel `cs.length`, which bounds the number of steps. -/
def scanLettersAux (cs : List Char) : Nat → Nat → Nat
  | 0, i => i
  | fuel+1, i =>
    match cs.get? i with
    | some c => if isLetterChar c then scanLettersAux cs fuel (i+1) else i
    | none => i

def scanLetters (cs : List Char) (i : Nat) : Nat := scanLettersAux cs cs.length i

/-- End of the regex match `[a-zA-Z]+(?:'[a-zA-Z]+)?` starting at `i` (which
must hold a letter): the maximal letter run, greedily extended by an
apostrophe plus a second letter run when present. -/
def endOfToken (cs : List Char) (i : Nat) : Nat :=
  match cs.get? (scanLetters cs i), cs.get? (scanLetters cs i + 1) with
  | some c, some d =>
      if c = '\'' && isLetterChar d then scanLetters cs (scanLetters cs i + 1)
      else scanLetters cs i
  | _, _ => scanLetters cs i

/-- The scanning loop of `extractWords`: skip non-letters; at a letter take
the regex match `[i, endOfToken)`, keep it when its length is at least 2
(`if (word.length < 2) continue`), and continue after the match.  The
position-verification step of the source (`text.substring(match.index, ...)
!== word`) is a tautology here because the token text is the slice itself.
Fuel is structural; the initial fuel `cs.length` covers every step because
each step advances `i` by at least one. -/
def extractAux (cs : List Char) : Nat → Nat → List WordMatch
  | 0, _ => []
  | fuel+1, i =>
    match cs.get? i with
    | none => []
    | some c =>
      if isLetterChar c then
        if 2 ≤ (String.mk (listSlice cs i (endOfToken cs i))).length then
          ⟨⟨listSlice cs i (endOfToken cs i)⟩, i, endOfToken cs i⟩ ::
            extractAux cs fuel (endOfToken cs i)
        else extractAux cs fuel (endOfToken cs i)
      else extractAux cs fuel (i+1)

/-- The function `extractWords` (src/utils/local-ai.ts:559): words with exact positions. -/
def extractWords (text : String) : List WordMatch :=
  extractAux text.data text.data.length 0

-- =============================================================================
-- Case preservation (`preserveCase`, src/utils/local-ai.ts:592-600)
-- =============================================================================

/-- Model of `correction.charAt(0).toUpperCase() + correction.slice(1).toLowerCase()`. -/
def titleCase (correction : String) : String :=
  match correction.data with
  | [] => ""
  | c :: cs => ⟨Char.toUpper c :: cs.map Char.toLower⟩

/-- Does `original[0] === original[0].toUpperCase()` hold?  The empty case is
unreachable in `preserveCase` (the first branch catches `""`). -/
def headEqUpper (s : String) : Bool :=
  match s.data with
  | [] => true
  | c :: _ => c = Char.toUpper c

/-- The function `preserveCase` (src/utils/local-ai.ts:592): reshape `correction` to the
casing pattern of `original`. -/
def preserveCase (original correction : String) : String :=
  if original = jsToUpper original then jsToUpper correction
  else if headEqUpper original then titleCase correction
  else jsToLower correction

-- =============================================================================
-- Analysis (`analyzeText`, src/utils/local-ai.ts:442-513)
-- =============================================================================

/-- The confidence value `0.95`, as a normalized rational. -/
def conf095 : ℚ := Rat.mk' 19 20

/-- The confidence value `0.9`, as a normalized rational. -/
def conf090 : ℚ := Rat.mk' 9 10

/-- The confidence value `0.5`, as a normalized rational. -/
def conf050 : ℚ := Rat.mk' 1 2

/-- The body of the `analyzeText` loop for one extracted word: probe the
dyslexia table, then letter reversals, then common typos, then homophones;
the first hit produces the (single) suggestion record for this token. -/
def classifyWord (w : WordMatch) : Option SpellingSuggestion :=
  match jsMapGet DYSLEXIA_ERRORS (jsToLower w.word) with
  | some e => some
      { original := w.word
        suggestions := [preserveCase w.word e.correction]
        confidence := conf095
        source := "local"
        position := ⟨w.start, w.«end»⟩
        category := some "purple"
        tip := some e.tip }
  | none =>
  match jsMapGet LETTER_REVERSALS (jsToLower w.word) with
  | some e => some
      { original := w.word
        suggestions := [preserveCase w.word e.correction]
        confidence := conf090
        source := "local"
        position := ⟨w.start, w.«end»⟩
        category := some "purple"
        tip := some e.tip }
  | none =>
  match jsMapGet COMMON_TYPOS (jsToLower w.word) with
  | some c => some
      { original := w.word
        suggestions := [preserveCase w.word c]
        confidence := conf090
        source := "local"
        position := ⟨w.start, w.«end»⟩
        category := some "orange"
        tip := some "Common typo - quick fix!" }
  | none =>
  match jsMapGet HOMOPHONES (jsToLower w.word) with
  | some h => some
      { original := w.word
        suggestions := h.alternatives.map (preserveCase w.word)
        confidence := conf050
        source := "local"
        position := ⟨w.start, w.«end»⟩
        category := some "yellow"
        tip := some h.tip }
  | none => none

/-- The function `analyzeText` (src/utils/local-ai.ts:442): one pass over the extracted
words, at most one suggestion per word (`continue` after the first hit). -/
def analyzeText (text : String) : List SpellingSuggestion :=
  (extractWords text).filterMap classifyWord

/-- The function `needsCorrection` (src/utils/local-ai.ts:518). -/
def needsCorrection (word : String) : Bool :=
  jsMapHas DYSLEXIA_ERRORS (jsToLower word) ||
  jsMapHas LETTER_REVERSALS (jsToLower word) ||
  jsMapHas COMMON_TYPOS (jsToLower word)

/-- The function `getInstantCorrection` (src/utils/local-ai.ts:530). -/
def getInstantCorrection (word : String) : Option String :=
  match jsMapGet DYSLEXIA_ERRORS (jsToLower word) with
  | some e => some (preserveCase word e.correction)
  | none =>
  match jsMapGet LETTER_REVERSALS (jsToLower word) with
  | some e => some (preserveCase word e.correction)
  | none =>
  match jsMapGet COMMON_TYPOS (jsToLower word) with
  | some c => some (preserveCase word c)
  | none => none

-- =============================================================================
-- Merge (`mergeSuggestions`, src/utils/local-ai.ts:194-225)
-- =============================================================================

/-- Model of `Map.prototype.set` on an insertion-ordered association list: an existing
key keeps its slot and gets the new value, a new key is appended. -/
def jsMapSet {α : Type} : List (String × α) → String → α → List (String × α)
  | [], k, v => [(k, v)]
  | p :: rest, k, v => if p.1 = k then (k, v) :: rest else p :: jsMapSet rest k v

/-- Model of `Map.prototype.get` on an insertion-ordered association list. -/
def jsAssocGet {α : Type} : List (String × α) → String → Option α
  | [], _ => none
  | p :: rest, k => if p.1 = k then some p.2 else jsAssocGet rest k

/-- One step of the first loop of `mergeSuggestions`. -/
def localStep (m : List (String × SpellingSuggestion)) (s : SpellingSuggestion) :
    List (String × SpellingSuggestion) :=
  jsMapSet m (jsToLower s.original) s

/-- One step of the second loop of `mergeSuggestions`: insert an unseen key;
on an existing key, replace only when strictly more confident, adopting the
incoming `suggestions` and `confidence` and recording `source: 'ai'` on top
of the existing record. -/
def aiStep (m : List (String × SpellingSuggestion)) (s : SpellingSuggestion) :
    List (String × SpellingSuggestion) :=
  match jsAssocGet m (jsToLower s.original) with
  | none => jsMapSet m (jsToLower s.original) s
  | some existing =>
      if existing.confidence < s.confidence then
        jsMapSet m (jsToLower s.original)
          { existing with
              suggestions := s.suggestions
              confidence := s.confidence
              source := "ai" }
      else m

/-- `mergeSuggestions` (src/utils/local-ai.ts:194): key both lists by
`original.toLowerCase()`, local records first, then the AI pass; the result
is the map's values in insertion order. -/
def mergeSuggestions (localSuggestions aiSuggestions : List SpellingSuggestion) :
    List SpellingSuggestion :=
  let seen := localSuggestions.foldl localStep []
  let seen2 := aiSuggestions.foldl aiStep seen
  seen2.map Prod.snd

-- =============================================================================
-- Spec-level definitions
-- =============================================================================

/-- Modelled from the spec: no function under `src/` accepts an ignore list
for the local analysis (`analyzeText` takes only the text; ignore terms are
only forwarded to the AI prompt).  §4.2 step 1 of the spec prescribes, per
token: "If lowercase token ∈ ignore set → skip entirely (no suggestion)",
before any table probe; the remaining steps are those of `analyzeText`. -/
def analyzeTextWithIgnore (text : String) (ignoreList : List String) :
    List SpellingSuggestion :=
  (extractWords text).filterMap fun w =>
    if jsToLower w.word ∈ ignoreList then none else classifyWord w

/-- The case-preservation rules exactly as the spec states them (§4.3):
rule 1 requires `original` to be fully upper-case AND non-empty; rule 2
fires when the first character of `original` is upper-case; rule 3 otherwise.
Stated for comparison against `preserveCase`. -/
def applyCaseSpec (original correction : String) : String :=
  if original ≠ "" ∧ original = jsToUpper original then jsToUpper correction
  else if (match original.data with | [] => false | c :: _ => c = Char.toUpper c) then
    titleCase correction
  else jsToLower correction

/-- The spec's case-preservation rules with the one amendment the code
forces: rule 1 fires whenever `original` equals its own upper-casing,
including the empty string (the source has no non-emptiness guard). -/
def applyCaseAmended (original correction : String) : String :=
  if original = jsToUpper original then jsToUpper correction
  else if (match original.data with | [] => false | c :: _ => c = Char.toUpper c) then
    titleCase correction
  else jsToLower correction

-- =============================================================================
-- Lemmas: word extraction
-- =============================================================================

theorem scanLettersAux_ge (cs : List Char) :
    ∀ fuel i, i ≤ scanLettersAux cs fuel i := by
  intro fuel
  induction fuel with
  | zero => intro i; simp [scanLettersAux]
  | succ n ih =>
    intro i
    unfold scanLettersAux
    split
    · split
      · exact Nat.le_trans (Nat.le_succ i) (ih (i+1))
      · exact Nat.le_refl i
    · exact Nat.le_refl i

theorem scanLettersAux_le (cs : List Char) :
    ∀ fuel i, i ≤ cs.length → scanLettersAux cs fuel i ≤ cs.length := by
  intro fuel
  induction fuel with
  | zero => intro i hi; simpa [scanLettersAux] using hi
  | succ n ih =>
    intro i hi
    unfold scanLettersAux
    split
    next c heq =>
      have hlt : i < cs.length := (List.get?_eq_some.mp heq).1
      split
      · exact ih (i+1) hlt
      · exact hi
    next => exact hi

theorem scanLetters_ge (cs : List Char) (i : Nat) : i ≤ scanLetters cs i :=
  scanLettersAux_ge cs cs.length i

theorem scanLetters_le (cs : List Char) (i : Nat) (hi : i ≤ cs.length) :
    scanLetters cs i ≤ cs.length :=
  scanLettersAux_le cs cs.length i hi

theorem endOfToken_ge (cs : List Char) (i : Nat) : i ≤ endOfToken cs i := by
  have h1 : i ≤ scanLetters cs i := scanLetters_ge cs i
  have h2 : scanLetters cs i + 1 ≤ scanLetters cs (scanLetters cs i + 1) :=
    scanLetters_ge cs _
  unfold endOfToken
  split
  · split
    · omega
    · exact h1
  · exact h1

theorem endOfToken_le (cs : List Char) (i : Nat) (hi : i ≤ cs.length) :
    endOfToken cs i ≤ cs.length := by
  have h1 : scanLetters cs i ≤ cs.length := scanLetters_le cs i hi
  unfold endOfToken
  split
  next c d heq heq2 =>
    have hlt : scanLetters cs i + 1 < cs.length := (List.get?_eq_some.mp heq2).1
    split
    · exact scanLetters_le cs _ (Nat.le_of_lt hlt)
    · exact h1
  next => exact h1

theorem extractAux_sound (cs : List Char) :
    ∀ fuel i, ∀ w ∈ extractAux cs fuel i,
      i ≤ w.start ∧ w.start + 2 ≤ w.«end» ∧ w.«end» ≤ cs.length ∧
      w.word.data = listSlice cs w.start w.«end» := by
  intro fuel
  induction fuel with
  | zero => intro i w hw; simp [extractAux] at hw
  | succ n ih =>
    intro i w hw
    unfold extractAux at hw
    split at hw
    next => exact absurd hw (List.not_mem_nil w)
    next c heq =>
      have hlt : i < cs.length := (List.get?_eq_some.mp heq).1
      have hjge : i ≤ endOfToken cs i := endOfToken_ge cs i
      have hjle : endOfToken cs i ≤ cs.length := endOfToken_le cs i (Nat.le_of_lt hlt)
      split at hw
      · split at hw
        next hlen =>
          rcases List.mem_cons.mp hw with hw | hw
          · subst hw
            refine ⟨Nat.le_refl _, ?_, hjle, rfl⟩
            have hslice : (listSlice cs i (endOfToken cs i)).length =
                min (endOfToken cs i - i) (cs.length - i) := by
              simp [listSlice, List.length_take, List.length_drop]
            have hlen' : 2 ≤ (listSlice cs i (endOfToken cs i)).length := hlen
            simp only [WordMatch.start, WordMatch.«end»]
            omega
          · have h := ih (endOfToken cs i) w hw
            exact ⟨Nat.le_trans hjge h.1, h.2.1, h.2.2.1, h.2.2.2⟩
        next =>
          have h := ih (endOfToken cs i) w hw
          exact ⟨Nat.le_trans hjge h.1, h.2.1, h.2.2.1, h.2.2.2⟩
      · have h := ih (i+1) w hw
        exact ⟨Nat.le_trans (Nat.le_succ i) h.1, h.2.1, h.2.2.1, h.2.2.2⟩

theorem extractAux_chain (cs : List Char) :
    ∀ fuel i, (extractAux cs fuel i).Pairwise (fun a b => a.«end» ≤ b.start) := by
  intro fuel
  induction fuel with
  | zero => intro i; simp [extractAux]
  | succ n ih =>
    intro i
    unfold extractAux
    split
    next => exact List.Pairwise.nil
    next c heq =>
      split
      · split
        · refine List.Pairwise.cons ?_ (ih (endOfToken cs i))
          intro b hb
          exact (extractAux_sound cs n (endOfToken cs i) b hb).1
        · exact ih (endOfToken cs i)
      · exact ih (i+1)

-- =============================================================================
-- Lemmas: classification
-- =============================================================================

theorem classifyWord_eq_some (w : WordMatch) (s : SpellingSuggestion)
    (h : classifyWord w = some s) :
    s.original = w.word ∧ s.position = ⟨w.start, w.«end»⟩ ∧ s.source = "local" := by
  unfold classifyWord at h
  split at h
  · cases h; exact ⟨rfl, rfl, rfl⟩
  · split at h
    · cases h; exact ⟨rfl, rfl, rfl⟩
    · split at h
      · cases h; exact ⟨rfl, rfl, rfl⟩
      · split at h
        · cases h; exact ⟨rfl, rfl, rfl⟩
        · exact absurd h (by simp)

/-- Claim C5 — offset correctness: for every input text and every suggestion
record returned by `analyzeText`, re-slicing the input at the record's
positions reproduces the matched token exactly:
`text.substring(record.position.start, record.position.end)` equals
`record.original` (which carries the source casing). -/
theorem analyzeText_offset_correct (text : String) (s : SpellingSuggestion)
    (hs : s ∈ analyzeText text) :
    jsSubstring text s.position.start s.position.«end» = s.original := by
  obtain ⟨w, hw, hcw⟩ := List.mem_filterMap.mp hs
  obtain ⟨horig, hpos, -⟩ := classifyWord_eq_some w s hcw
  obtain ⟨-, hlen, hle, hdata⟩ := extractAux_sound text.data text.data.length 0 w hw
  rw [horig, hpos]
  simp only [jsSubstring]
  rw [Nat.min_eq_left (by omega), Nat.min_eq_left (by omega),
    Nat.min_eq_left (by omega), Nat.max_eq_right (by omega)]
  rw [← hdata]

/-- Witness for C5 at a concrete input: re-slicing `"I have a frend"` at the
emitted record's offsets `[9, 14)` returns `"frend"`. -/
theorem analyzeText_offset_correct_witness :
    jsSubstring "I have a frend" 9 14 = "frend" :=
  analyzeText_offset_correct "I have a frend"
    { original := "frend"
      suggestions := ["friend"]
      confidence := conf095
      source := "local"
      position := ⟨9, 14⟩
      category := some "purple"
      tip := some "\"i\" before \"e\" - think \"I am your frIEnd\"" }
    (by decide)

/-- Claim C6 — output order: records of `analyzeText` appear in left-to-right
order of their matched tokens (`position.start` strictly increases), and in
particular no two records share the same
`(original.toLowerCase(), position.start)` pair. -/
theorem analyzeText_ordered (text : String) :
    (analyzeText text).Pairwise (fun a b => a.position.start < b.position.start) ∧
    (analyzeText text).Pairwise (fun a b =>
      ¬(jsToLower a.original = jsToLower b.original ∧
        a.position.start = b.position.start)) := by
  have hchain : (extractWords text).Pairwise (fun a b => a.«end» ≤ b.start) :=
    extractAux_chain text.data text.data.length 0
  have hstrict : (extractWords text).Pairwise (fun a b => a.start < b.start) := by
    refine List.Pairwise.imp_of_mem ?_ hchain
    intro a b ha _ hab
    have hs := extractAux_sound text.data text.data.length 0 a ha
    omega
  have h1 : (analyzeText text).Pairwise
      (fun a b => a.position.start < b.position.start) := by
    refine List.Pairwise.filterMap classifyWord ?_ hstrict
    intro a a' hlt b hb b' hb'
    have hfb := classifyWord_eq_some a b (Option.mem_def.mp hb)
    have hfb' := classifyWord_eq_some a' b' (Option.mem_def.mp hb')
    rw [hfb.2.1, hfb'.2.1]
    exact hlt
  refine ⟨h1, List.Pairwise.imp ?_ h1⟩
  intro a b hab
  intro hcontra
  omega

theorem conf095_eq : conf095 = 95/100 := by
  rw [conf095, Rat.mk'_eq_divInt]; norm_num [Rat.divInt_eq_div]

theorem conf090_eq : conf090 = 90/100 := by
  rw [conf090, Rat.mk'_eq_divInt]; norm_num [Rat.divInt_eq_div]

theorem conf050_eq : conf050 = 50/100 := by
  rw [conf050, Rat.mk'_eq_divInt]; norm_num [Rat.divInt_eq_div]

/-- Claim C4 — first-match precedence and the category/confidence policy: the
analysis is one `filterMap` over the extracted tokens (so each token yields
at most one record, and the output is never longer than the token list), and
every emitted record is determined by the first matching table in the order
phonetic/dyslexia, letter-reversal, common-typo, homophone, with exactly the
table's category, confidence and suggestion payload, and `source = "local"`. -/
theorem analyzeText_first_match (text : String) :
    analyzeText text = (extractWords text).filterMap classifyWord ∧
    (analyzeText text).length ≤ (extractWords text).length ∧
    ∀ s ∈ analyzeText text,
      s.source = "local" ∧
      ((∃ e, jsMapGet DYSLEXIA_ERRORS (jsToLower s.original) = some e ∧
          s.category = some "purple" ∧ s.confidence = 95/100 ∧
          s.suggestions = [preserveCase s.original e.correction]) ∨
       (jsMapGet DYSLEXIA_ERRORS (jsToLower s.original) = none ∧
        ∃ e, jsMapGet LETTER_REVERSALS (jsToLower s.original) = some e ∧
          s.category = some "purple" ∧ s.confidence = 90/100 ∧
          s.suggestions = [preserveCase s.original e.correction]) ∨
       (jsMapGet DYSLEXIA_ERRORS (jsToLower s.original) = none ∧
        jsMapGet LETTER_REVERSALS (jsToLower s.original) = none ∧
        ∃ c, jsMapGet COMMON_TYPOS (jsToLower s.original) = some c ∧
          s.category = some "orange" ∧ s.confidence = 90/100 ∧
          s.suggestions = [preserveCase s.original c]) ∨
       (jsMapGet DYSLEXIA_ERRORS (jsToLower s.original) = none ∧
        jsMapGet LETTER_REVERSALS (jsToLower s.original) = none ∧
        jsMapGet COMMON_TYPOS (jsToLower s.original) = none ∧
        ∃ hm, jsMapGet HOMOPHONES (jsToLower s.original) = some hm ∧
          s.category = some "yellow" ∧ s.confidence = 50/100 ∧
          s.suggestions = hm.alternatives.map (preserveCase s.original))) := by
  refine ⟨rfl, List.length_filterMap_le classifyWord (extractWords text), ?_⟩
  intro s hs
  obtain ⟨w, _, hcw⟩ := List.mem_filterMap.mp hs
  unfold classifyWord at hcw
  split at hcw
  next e h1 =>
    cases hcw
    exact ⟨rfl, Or.inl ⟨e, h1, rfl, conf095_eq, rfl⟩⟩
  next h1 =>
    split at hcw
    next e h2 =>
      cases hcw
      exact ⟨rfl, Or.inr (Or.inl ⟨h1, e, h2, rfl, conf090_eq, rfl⟩)⟩
    next h2 =>
      split at hcw
      next c h3 =>
        cases hcw
        exact ⟨rfl, Or.inr (Or.inr (Or.inl ⟨h1, h2, c, h3, rfl, conf090_eq, rfl⟩))⟩
      next h3 =>
        split at hcw
        next hm h4 =>
          cases hcw
          exact ⟨rfl, Or.inr (Or.inr (Or.inr ⟨h1, h2, h3, hm, h4, rfl, conf050_eq, rfl⟩))⟩
        next => exact absurd hcw (by simp)

/-- Witness for C4: on `"teh cat"` the emitted record (a common-typo hit at
`[0,3)`) satisfies the policy; in particular its source is `"local"`. -/
theorem analyzeText_first_match_witness :
    (⟨"teh", [preserveCase "teh" "the"], conf090, "local", ⟨0, 3⟩, some "orange",
      some "Common typo - quick fix!"⟩ : SpellingSuggestion).source = "local" :=
  ((analyzeText_first_match "teh cat").2.2
    ⟨"teh", [preserveCase "teh" "the"], conf090, "local", ⟨0, 3⟩, some "orange",
      some "Common typo - quick fix!"⟩ (by decide)).1

/-- Claim C1 — ignore-list suppression (spec-modelled): for every text, ignore
list and word `w` in the ignore list, `analyzeTextWithIgnore` emits no
record whose lowercased `original` equals `w`, even when `w` matches a
lexicon entry — an ignored token is skipped before any table probe. -/
theorem analyzeTextWithIgnore_suppresses (text : String) (ignoreList : List String)
    (w : String) (hw : w ∈ ignoreList) :
    ∀ s ∈ analyzeTextWithIgnore text ignoreList, jsToLower s.original ≠ w := by
  intro s hs heq
  obtain ⟨t, _, hts⟩ := List.mem_filterMap.mp hs
  by_cases hmem : jsToLower t.word ∈ ignoreList
  · simp [hmem] at hts
  · simp only [hmem, if_false] at hts
    obtain ⟨horig, -, -⟩ := classifyWord_eq_some t s hts
    rw [horig] at heq
    exact hmem (heq ▸ hw)

/-- Witness for C1: with `"frend"` ignored, the record that
`"a frend and teh end"` still produces (for `"teh"`) is not the ignored
word; `"frend"` itself — a phonetic-table key — is suppressed. -/
theorem analyzeTextWithIgnore_suppresses_witness :
    jsToLower (⟨"teh", [preserveCase "teh" "the"], conf090, "local", ⟨12, 15⟩,
      some "orange", some "Common typo - quick fix!"⟩ : SpellingSuggestion).original
      ≠ "frend" :=
  analyzeTextWithIgnore_suppresses "a frend and teh end" ["frend"] "frend"
    (by decide)
    ⟨"teh", [preserveCase "teh" "the"], conf090, "local", ⟨12, 15⟩,
      some "orange", some "Common typo - quick fix!"⟩ (by decide)

-- =============================================================================
-- Case preservation (C7) and single-word helpers (C8, C10)
-- =============================================================================

/-- Counterexample to C7 as stated: on the empty original the code's first
branch still fires (`"" === "".toUpperCase()`), returning the correction
fully upper-cased, while the spec's rules (rule 1 demands a non-empty
original, rule 2 demands an upper-case first character) fall through to
rule 3 and lower-case it. -/
theorem preserveCase_spec_cex :
    preserveCase "" "their" = "THEIR" ∧ applyCaseSpec "" "their" = "their" ∧
    preserveCase "" "their" ≠ applyCaseSpec "" "their" := by decide

/-- Claim C7 (amended) — the function `preserveCase` applies the spec's three rules in order,
except that rule 1 (all-caps) fires whenever the original equals its own
upper-casing, including the empty original; the three round-trip examples
hold as stated. -/
theorem preserveCase_rules :
    (∀ o c, preserveCase o c = applyCaseAmended o c) ∧
    preserveCase "THIER" "their" = "THEIR" ∧
    preserveCase "Thier" "their" = "Their" ∧
    preserveCase "thier" "their" = "their" := by
  refine ⟨?_, by decide, by decide, by decide⟩
  intro o c
  unfold preserveCase applyCaseAmended headEqUpper
  by_cases h : o = jsToUpper o
  · simp only [if_pos h]
  · simp only [h, if_false]
    cases ho : o.data with
    | nil =>
      exfalso
      apply h
      have hempty : o = "" := by
        cases o with
        | mk d => subst ho; decide
      rw [hempty]
      decide
    | cons c' cs => rfl

/-- Claim C8 — the function `getInstantCorrection` returns a result exactly when the lowercased
word is a key of the phonetic/dyslexia, letter-reversal or common-typo table
(homophone membership alone never yields one), and the result is the first
matching table's single correction with the original casing applied. -/
theorem getInstantCorrection_spec (word : String) :
    ((getInstantCorrection word).isSome ↔
      ((jsMapGet DYSLEXIA_ERRORS (jsToLower word)).isSome ∨
       (jsMapGet LETTER_REVERSALS (jsToLower word)).isSome ∨
       (jsMapGet COMMON_TYPOS (jsToLower word)).isSome)) ∧
    (∀ e, jsMapGet DYSLEXIA_ERRORS (jsToLower word) = some e →
      getInstantCorrection word = some (preserveCase word e.correction)) ∧
    (jsMapGet DYSLEXIA_ERRORS (jsToLower word) = none →
      ∀ e, jsMapGet LETTER_REVERSALS (jsToLower word) = some e →
        getInstantCorrection word = some (preserveCase word e.correction)) ∧
    (jsMapGet DYSLEXIA_ERRORS (jsToLower word) = none →
      jsMapGet LETTER_REVERSALS (jsToLower word) = none →
        ∀ c, jsMapGet COMMON_TYPOS (jsToLower word) = some c →
          getInstantCorrection word = some (preserveCase word c)) := by
  unfold getInstantCorrection
  cases h1 : jsMapGet DYSLEXIA_ERRORS (jsToLower word) with
  | some e =>
    refine ⟨by simp, ?_, ?_, ?_⟩
    · intro e' he'
      cases he'
      rfl
    · intro hn
      exact absurd hn (by simp)
    · intro hn
      exact absurd hn (by simp)
  | none =>
    cases h2 : jsMapGet LETTER_REVERSALS (jsToLower word) with
    | some e =>
      refine ⟨by simp, ?_, ?_, ?_⟩
      · intro e' he'
        exact absurd he' (by simp)
      · intro _ e' he'
        cases he'
        rfl
      · intro _ hn
        exact absurd hn (by simp)
    | none =>
      cases h3 : jsMapGet COMMON_TYPOS (jsToLower word) with
      | some c =>
        refine ⟨by simp, ?_, ?_, ?_⟩
        · intro e' he'
          exact absurd he' (by simp)
        · intro _ e' he'
          exact absurd he' (by simp)
        · intro _ _ c' hc'
          cases hc'
          rfl
      | none =>
        refine ⟨by simp, ?_, ?_, ?_⟩
        · intro e' he'
          exact absurd he' (by simp)
        · intro _ e' he'
          exact absurd he' (by simp)
        · intro _ _ c' hc'
          exact absurd hc' (by simp)

/-- Witness for C8: `"THIER"` is a phonetic-table key, and its instant
correction is the case-adapted `"THEIR"`. -/
theorem getInstantCorrection_spec_witness :
    getInstantCorrection "THIER" =
      some (preserveCase "THIER"
        (⟨"their", "\"i\" before \"e\" - \"thEIr\" belongs to thEm"⟩ :
          ErrorEntry).correction) :=
  (getInstantCorrection_spec "THIER").2.1
    ⟨"their", "\"i\" before \"e\" - \"thEIr\" belongs to thEm"⟩ (by decide)

/-- Claim C10 — the quick check and the instant-correction lookup agree:
`needsCorrection word` is true exactly when `getInstantCorrection word` is
non-null, i.e. exactly when the lowercased word is a key of the
phonetic/dyslexia, letter-reversal or common-typo table. -/
theorem needsCorrection_agrees (word : String) :
    needsCorrection word = (getInstantCorrection word).isSome ∧
    (needsCorrection word = true ↔
      ((jsMapGet DYSLEXIA_ERRORS (jsToLower word)).isSome ∨
       (jsMapGet LETTER_REVERSALS (jsToLower word)).isSome ∨
       (jsMapGet COMMON_TYPOS (jsToLower word)).isSome)) := by
  unfold needsCorrection getInstantCorrection jsMapHas
  cases h1 : jsMapGet DYSLEXIA_ERRORS (jsToLower word) with
  | some e => simp
  | none =>
    cases h2 : jsMapGet LETTER_REVERSALS (jsToLower word) with
    | some e => simp
    | none =>
      cases h3 : jsMapGet COMMON_TYPOS (jsToLower word) with
      | some c => simp
      | none => simp

-- =============================================================================
-- Lexicon key invariants (C2)
-- =============================================================================

/-- Counterexample to C2 as stated: the lowercase key `"rite"` occurs in
both the phonetic/dyslexia table and the letter-reversal table. -/
theorem lexicon_disjoint_cex :
    (jsMapGet DYSLEXIA_ERRORS "rite").isSome ∧
    (jsMapGet LETTER_REVERSALS "rite").isSome := by decide

/-- Claim C2 (amended) — every key occurs at most once within its own table, and
no lowercase key other than `"rite"` occurs in more than one of the
phonetic/dyslexia, letter-reversal and common-typo tables; `"rite"` occurs
in exactly the phonetic/dyslexia and letter-reversal tables (keys may
additionally occur in the homophone table). -/
theorem lexicon_keys_unique :
    (DYSLEXIA_ERRORS.map Prod.fst).Nodup ∧
    (COMMON_TYPOS.map Prod.fst).Nodup ∧
    (LETTER_REVERSALS.map Prod.fst).Nodup ∧
    (HOMOPHONES.map Prod.fst).Nodup ∧
    (DYSLEXIA_ERRORS.map Prod.fst).filter
      (fun k => (jsMapGet LETTER_REVERSALS k).isSome) = ["rite"] ∧
    (DYSLEXIA_ERRORS.map Prod.fst).filter
      (fun k => (jsMapGet COMMON_TYPOS k).isSome) = [] ∧
    (LETTER_REVERSALS.map Prod.fst).filter
      (fun k => (jsMapGet COMMON_TYPOS k).isSome) = [] := by decide

-- =============================================================================
-- Lemmas: merge map
-- =============================================================================

theorem jsAssocGet_set_same {α : Type} (m : List (String × α)) (k : String) (v : α) :
    jsAssocGet (jsMapSet m k v) k = some v := by
  induction m with
  | nil => simp [jsMapSet, jsAssocGet]
  | cons p rest ih =>
    by_cases h : p.1 = k
    · simp [jsMapSet, jsAssocGet, h]
    · simp [jsMapSet, jsAssocGet, h, ih]

theorem jsAssocGet_set_other {α : Type} (m : List (String × α)) (k k' : String) (v : α)
    (h : k' ≠ k) : jsAssocGet (jsMapSet m k v) k' = jsAssocGet m k' := by
  induction m with
  | nil => simp [jsMapSet, jsAssocGet, Ne.symm h]
  | cons p rest ih =>
    by_cases hp : p.1 = k
    · subst hp
      simp [jsMapSet, jsAssocGet, Ne.symm h]
    · simp [jsMapSet, jsAssocGet, hp, ih]

theorem jsAssocGet_mem_pair {α : Type} (m : List (String × α)) (k : String) (v : α)
    (h : jsAssocGet m k = some v) : (k, v) ∈ m := by
  induction m with
  | nil => simp [jsAssocGet] at h
  | cons p rest ih =>
    by_cases hp : p.1 = k
    · simp only [jsAssocGet, hp, if_pos] at h
      cases h
      have : p = (p.1, p.2) := rfl
      rw [hp] at this
      exact this ▸ List.mem_cons_self p rest
    · simp only [jsAssocGet, hp, if_neg, if_false] at h
      exact List.mem_cons_of_mem p (ih h)

theorem jsAssocGet_mem_values {α : Type} (m : List (String × α)) (k : String) (v : α)
    (h : jsAssocGet m k = some v) : v ∈ m.map Prod.snd := by
  have := jsAssocGet_mem_pair m k v h
  exact List.mem_map.mpr ⟨(k, v), this, rfl⟩

theorem jsMapSet_keys {α : Type} (m : List (String × α)) (k : String) (v : α) :
    (jsMapSet m k v).map Prod.fst =
      if k ∈ m.map Prod.fst then m.map Prod.fst else m.map Prod.fst ++ [k] := by
  induction m with
  | nil => simp [jsMapSet]
  | cons p rest ih =>
    by_cases hp : p.1 = k
    · simp [jsMapSet, hp]
    · by_cases hm : k ∈ rest.map Prod.fst
      · simp [jsMapSet, hp, Ne.symm hp, hm, ih]
      · simp [jsMapSet, hp, Ne.symm hp, hm, ih]

/-- The invariant of the `seen` map: keys are pairwise distinct, and each
entry's key is the lowercasing of its value's `original`. -/
def MapInv (m : List (String × SpellingSuggestion)) : Prop :=
  (m.map Prod.fst).Nodup ∧ ∀ p ∈ m, p.1 = jsToLower p.2.original

theorem jsMapSet_coherent (m : List (String × SpellingSuggestion)) (k : String)
    (v : SpellingSuggestion) (hk : k = jsToLower v.original) :
    (∀ p ∈ m, p.1 = jsToLower p.2.original) →
      ∀ p ∈ jsMapSet m k v, p.1 = jsToLower p.2.original := by
  induction m with
  | nil =>
    intro _ p hp
    simp only [jsMapSet, List.mem_singleton] at hp
    subst hp
    exact hk
  | cons q rest ih =>
    intro hco p hp
    by_cases hq : q.1 = k
    · simp only [jsMapSet] at hp
      rw [if_pos hq] at hp
      rcases List.mem_cons.mp hp with hp | hp
      · subst hp; exact hk
      · exact hco _ (List.mem_cons_of_mem q hp)
    · simp only [jsMapSet] at hp
      rw [if_neg hq] at hp
      rcases List.mem_cons.mp hp with hp | hp
      · rw [hp]; exact hco q (List.mem_cons_self q rest)
      · exact ih (fun r hr => hco r (List.mem_cons_of_mem q hr)) p hp

theorem jsMapSet_inv (m : List (String × SpellingSuggestion)) (k : String)
    (v : SpellingSuggestion) (hm : MapInv m) (hk : k = jsToLower v.original) :
    MapInv (jsMapSet m k v) := by
  obtain ⟨hnd, hco⟩ := hm
  constructor
  · rw [jsMapSet_keys]
    by_cases hmem : k ∈ m.map Prod.fst
    · simpa [hmem] using hnd
    · simp only [hmem, if_false]
      simp [List.nodup_append, hnd, hmem]
  · exact jsMapSet_coherent m k v hk hco

theorem localStep_inv (m : List (String × SpellingSuggestion))
    (s : SpellingSuggestion) (hm : MapInv m) : MapInv (localStep m s) :=
  jsMapSet_inv m _ s hm rfl

theorem aiStep_inv (m : List (String × SpellingSuggestion))
    (s : SpellingSuggestion) (hm : MapInv m) : MapInv (aiStep m s) := by
  unfold aiStep
  cases hg : jsAssocGet m (jsToLower s.original) with
  | none => exact jsMapSet_inv m _ s hm rfl
  | some existing =>
    by_cases hc : existing.confidence < s.confidence
    · simp only [hc, if_pos]
      refine jsMapSet_inv m _ _ hm ?_
      have hpair := jsAssocGet_mem_pair m _ existing hg
      exact hm.2 _ hpair
    · simp only [hc, if_neg, if_false]
      exact hm

theorem foldl_preserves {σ β : Type} (P : σ → Prop) (f : σ → β → σ)
    (hf : ∀ m b, P m → P (f m b)) :
    ∀ (l : List β) (m : σ), P m → P (l.foldl f m) := by
  intro l
  induction l with
  | nil => intro m hm; exact hm
  | cons b bs ih => intro m hm; exact ih _ (hf m b hm)

theorem foldl_localStep_get_frame (k : String) :
    ∀ (ls : List SpellingSuggestion), (∀ x ∈ ls, jsToLower x.original ≠ k) →
      ∀ m, jsAssocGet (ls.foldl localStep m) k = jsAssocGet m k := by
  intro ls
  induction ls with
  | nil => intro _ m; rfl
  | cons s rest ih =>
    intro h m
    simp only [List.foldl_cons]
    rw [ih (fun x hx => h x (List.mem_cons_of_mem s hx)) (localStep m s)]
    exact jsAssocGet_set_other m _ k s (Ne.symm (h s (List.mem_cons_self s rest)))

theorem aiStep_get_frame (m : List (String × SpellingSuggestion))
    (s : SpellingSuggestion) (k : String) (h : jsToLower s.original ≠ k) :
    jsAssocGet (aiStep m s) k = jsAssocGet m k := by
  unfold aiStep
  cases hg : jsAssocGet m (jsToLower s.original) with
  | none => exact jsAssocGet_set_other m _ k s (Ne.symm h)
  | some existing =>
    by_cases hc : existing.confidence < s.confidence
    · simp only [hc, if_pos]
      exact jsAssocGet_set_other m _ k _ (Ne.symm h)
    · simp only [hc, if_neg, if_false]

theorem foldl_aiStep_get_frame (k : String) :
    ∀ (ais : List SpellingSuggestion), (∀ x ∈ ais, jsToLower x.original ≠ k) →
      ∀ m, jsAssocGet (ais.foldl aiStep m) k = jsAssocGet m k := by
  intro ais
  induction ais with
  | nil => intro _ m; rfl
  | cons s rest ih =>
    intro h m
    simp only [List.foldl_cons]
    rw [ih (fun x hx => h x (List.mem_cons_of_mem s hx)) (aiStep m s)]
    exact aiStep_get_frame m s k (h s (List.mem_cons_self s rest))

/-- The AI step at the (unique) matching key: replace exactly when strictly
more confident, adopting `suggestions`, `confidence` and `source: 'ai'`. -/
theorem aiStep_get_hit (m : List (String × SpellingSuggestion))
    (a : SpellingSuggestion) (k : String) (hka : jsToLower a.original = k)
    (l : SpellingSuggestion) (hm : jsAssocGet m k = some l) :
    jsAssocGet (aiStep m a) k =
      some (if l.confidence < a.confidence then
        { l with suggestions := a.suggestions, confidence := a.confidence,
                 source := "ai" }
      else l) := by
  unfold aiStep
  rw [hka, hm]
  by_cases hc : l.confidence < a.confidence
  · simp only [hc, if_pos]
    exact jsAssocGet_set_same _ k _
  · simp only [hc, if_neg, if_false]
    exact hm

/-- After both merge loops, the entry at key `k` is the last local record
with that key, replaced by the AI update exactly when the (unique) AI record
with that key is strictly more confident. -/
theorem merge_key_result
    (ls ais ls₁ ls₂ as₁ as₂ : List SpellingSuggestion)
    (l a : SpellingSuggestion) (k : String)
    (hls : ls = ls₁ ++ l :: ls₂) (hkl : jsToLower l.original = k)
    (hls₂ : ∀ x ∈ ls₂, jsToLower x.original ≠ k)
    (hais : ais = as₁ ++ a :: as₂) (hka : jsToLower a.original = k)
    (has₁ : ∀ x ∈ as₁, jsToLower x.original ≠ k)
    (has₂ : ∀ x ∈ as₂, jsToLower x.original ≠ k) :
    jsAssocGet (ais.foldl aiStep (ls.foldl localStep [])) k =
      some (if l.confidence < a.confidence then
        { l with suggestions := a.suggestions, confidence := a.confidence,
                 source := "ai" }
      else l) := by
  subst hls hais
  have hL : jsAssocGet ((ls₁ ++ l :: ls₂).foldl localStep []) k = some l := by
    rw [List.foldl_append, List.foldl_cons]
    rw [foldl_localStep_get_frame k ls₂ hls₂]
    unfold localStep
    rw [hkl]
    exact jsAssocGet_set_same _ k l
  have hA1 : jsAssocGet
      (as₁.foldl aiStep ((ls₁ ++ l :: ls₂).foldl localStep [])) k = some l := by
    rw [foldl_aiStep_get_frame k as₁ has₁]
    exact hL
  rw [List.foldl_append, List.foldl_cons]
  rw [foldl_aiStep_get_frame k as₂ has₂]
  exact aiStep_get_hit _ a k hka l hA1

/-- The merged value list has pairwise distinct lowercase keys. -/
theorem merge_values_distinct (ls ais : List SpellingSuggestion) :
    (mergeSuggestions ls ais).Pairwise
      (fun x y => jsToLower x.original ≠ jsToLower y.original) := by
  have hinv : MapInv (ais.foldl aiStep (ls.foldl localStep [])) := by
    refine foldl_preserves MapInv aiStep aiStep_inv ais _ ?_
    refine foldl_preserves MapInv localStep localStep_inv ls _ ?_
    exact ⟨List.nodup_nil, by simp⟩
  obtain ⟨hnd, hco⟩ := hinv
  have hpair : (ais.foldl aiStep (ls.foldl localStep [])).Pairwise
      (fun p q => p.1 ≠ q.1) := (List.pairwise_map).mp hnd
  have hpair2 : (ais.foldl aiStep (ls.foldl localStep [])).Pairwise
      (fun p q => jsToLower p.2.original ≠ jsToLower q.2.original) := by
    refine List.Pairwise.imp_of_mem ?_ hpair
    intro p q hp hq hne
    rw [← hco p hp, ← hco q hq]
    exact hne
  exact (List.pairwise_map).mpr hpair2

/-- Counterexample to C3 as stated: when the strictly more confident AI
record replaces the local one, the merged record keeps the LOCAL record's
`category` and `tip` (the source spreads the existing record and only
overrides `suggestions`, `confidence` and `source`); it does not adopt the
AI record's `category` and `tip`. -/
theorem mergeSuggestions_adopt_cex :
    mergeSuggestions
      [{ original := "frend", suggestions := ["friend"], confidence := conf095,
         source := "local", position := ⟨10, 15⟩, category := some "purple",
         tip := some "local tip" }]
      [{ original := "frend", suggestions := ["friend", "freind"],
         confidence := Rat.mk' 99 100, source := "ai", position := ⟨10, 15⟩,
         category := some "yellow", tip := some "ai tip" }] =
      [{ original := "frend", suggestions := ["friend", "freind"],
         confidence := Rat.mk' 99 100, source := "ai", position := ⟨10, 15⟩,
         category := some "purple", tip := some "local tip" }] ∧
    (some "purple" : Option String) ≠ some "yellow" ∧
    (some "local tip" : Option String) ≠ some "ai tip" := by decide

/-- Claim C3 (amended) — in the merge keyed by `original.toLowerCase()`, an AI
suggestion replaces the local suggestion for the same key exactly when its
confidence is strictly greater; the replacement adopts the AI record's
`suggestions` and `confidence` and records `source := "ai"` while keeping the
local record's other fields (in particular `category` and `tip`); with equal
or lower AI confidence the local record is kept unchanged; and no two merged
records share the same lowercase key. -/
theorem mergeSuggestions_spec
    (ls ais ls₁ ls₂ as₁ as₂ : List SpellingSuggestion)
    (l a : SpellingSuggestion) (k : String)
    (hls : ls = ls₁ ++ l :: ls₂) (hkl : jsToLower l.original = k)
    (hls₂ : ∀ x ∈ ls₂, jsToLower x.original ≠ k)
    (hais : ais = as₁ ++ a :: as₂) (hka : jsToLower a.original = k)
    (has₁ : ∀ x ∈ as₁, jsToLower x.original ≠ k)
    (has₂ : ∀ x ∈ as₂, jsToLower x.original ≠ k) :
    ((l.confidence < a.confidence →
        { l with suggestions := a.suggestions, confidence := a.confidence,
                 source := "ai" } ∈ mergeSuggestions ls ais) ∧
     (¬ l.confidence < a.confidence → l ∈ mergeSuggestions ls ais)) ∧
    (mergeSuggestions ls ais).Pairwise
      (fun x y => jsToLower x.original ≠ jsToLower y.original) := by
  have hget := merge_key_result ls ais ls₁ ls₂ as₁ as₂ l a k
    hls hkl hls₂ hais hka has₁ has₂
  refine ⟨⟨?_, ?_⟩, merge_values_distinct ls ais⟩
  · intro hc
    rw [if_pos hc] at hget
    exact jsAssocGet_mem_values _ k _ hget
  · intro hc
    rw [if_neg hc] at hget
    exact jsAssocGet_mem_values _ k _ hget

/-- Witness for C3: merging the local `frend` record (confidence 0.95) with
a strictly more confident AI record (0.99) yields the AI payload with the
local category and tip kept. -/
theorem mergeSuggestions_spec_witness :
    ({ original := "frend", suggestions := ["friend", "freind"],
       confidence := Rat.mk' 99 100, source := "ai", position := ⟨0, 5⟩,
       category := some "purple", tip := some "local tip" } : SpellingSuggestion) ∈
      mergeSuggestions
        [{ original := "frend", suggestions := ["friend"], confidence := conf095,
           source := "local", position := ⟨0, 5⟩, category := some "purple",
           tip := some "local tip" }]
        [{ original := "frend", suggestions := ["friend", "freind"],
           confidence := Rat.mk' 99 100, source := "ai", position := ⟨0, 5⟩,
           category := some "yellow", tip := some "ai tip" }] :=
  ((mergeSuggestions_spec
    [{ original := "frend", suggestions := ["friend"], confidence := conf095,
       source := "local", position := ⟨0, 5⟩, category := some "purple",
       tip := some "local tip" }]
    [{ original := "frend", suggestions := ["friend", "freind"],
       confidence := Rat.mk' 99 100, source := "ai", position := ⟨0, 5⟩,
       category := some "yellow", tip := some "ai tip" }]
    [] [] [] []
    { original := "frend", suggestions := ["friend"], confidence := conf095,
      source := "local", position := ⟨0, 5⟩, category := some "purple",
      tip := some "local tip" }
    { original := "frend", suggestions := ["friend", "freind"],
      confidence := Rat.mk' 99 100, source := "ai", position := ⟨0, 5⟩,
      category := some "yellow", tip := some "ai tip" }
    "frend" rfl (by decide) (by simp) rfl (by decide) (by simp) (by simp)).1.1
    (by decide))

/-- Claim C9 — frame effect of the replacing merge: when the AI suggestion wins
(strictly greater confidence), the merged record keeps the local record's
`original`, `position`, `category` and `tip`, adopting only `suggestions`,
`confidence` and `source`. -/
theorem mergeSuggestions_frame
    (ls ais ls₁ ls₂ as₁ as₂ : List SpellingSuggestion)
    (l a : SpellingSuggestion) (k : String)
    (hls : ls = ls₁ ++ l :: ls₂) (hkl : jsToLower l.original = k)
    (hls₂ : ∀ x ∈ ls₂, jsToLower x.original ≠ k)
    (hais : ais = as₁ ++ a :: as₂) (hka : jsToLower a.original = k)
    (has₁ : ∀ x ∈ as₁, jsToLower x.original ≠ k)
    (has₂ : ∀ x ∈ as₂, jsToLower x.original ≠ k)
    (hc : l.confidence < a.confidence) :
    ∃ r ∈ mergeSuggestions ls ais,
      r.original = l.original ∧ r.position = l.position ∧
      r.category = l.category ∧ r.tip = l.tip ∧
      r.suggestions = a.suggestions ∧ r.confidence = a.confidence ∧
      r.source = "ai" := by
  have hget := merge_key_result ls ais ls₁ ls₂ as₁ as₂ l a k
    hls hkl hls₂ hais hka has₁ has₂
  rw [if_pos hc] at hget
  exact ⟨_, jsAssocGet_mem_values _ k _ hget, rfl, rfl, rfl, rfl, rfl, rfl, rfl⟩

/-- Witness for C9 at concrete records: the replaced `thier` record keeps
the local `original`, `position`, `category`, `tip`. -/
theorem mergeSuggestions_frame_witness :
    ∃ r ∈ mergeSuggestions
        [{ original := "Thier", suggestions := ["Their"], confidence := conf095,
           source := "local", position := ⟨4, 9⟩, category := some "purple",
           tip := some "t-local" }]
        [{ original := "thier", suggestions := ["their", "there"],
           confidence := Rat.mk' 24 25, source := "ai", position := ⟨4, 9⟩,
           category := some "blue", tip := some "t-ai" }],
      r.original = "Thier" ∧ r.position = (⟨4, 9⟩ : Position) ∧
      r.category = some "purple" ∧ r.tip = some "t-local" ∧
      r.suggestions = ["their", "there"] ∧ r.confidence = Rat.mk' 24 25 ∧
      r.source = "ai" :=
  mergeSuggestions_frame
    [{ original := "Thier", suggestions := ["Their"], confidence := conf095,
       source := "local", position := ⟨4, 9⟩, category := some "purple",
       tip := some "t-local" }]
    [{ original := "thier", suggestions := ["their", "there"],
       confidence := Rat.mk' 24 25, source := "ai", position := ⟨4, 9⟩,
       category := some "blue", tip := some "t-ai" }]
    [] [] [] []
    { original := "Thier", suggestions := ["Their"], confidence := conf095,
      source := "local", position := ⟨4, 9⟩, category := some "purple",
      tip := some "t-local" }
    { original := "thier", suggestions := ["their", "there"],
      confidence := Rat.mk' 24 25, source := "ai", position := ⟨4, 9⟩,
      category := some "blue", tip := some "t-ai" }
    "thier" rfl (by decide) (by simp) rfl (by decide) (by simp) (by simp)
    (by decide)
